import Mathlib

/-!
Verification development for the schema-to-binding code-generation engine
of the cs-bindgen repository.

The definitions in this file are a shallow embedding of the generator's
source code:

* `rawTypeFromSchema` / `rawTypeFromRepr` embed the Raw-Representation
  Resolver of `cs-bindgen-cli/src/generate/binding.rs`.
* `quoteEnumBinding`, `quoteSimpleEnumBinding`, `quoteComplexEnumBinding`
  and `quoteDiscriminantType` embed `cs-bindgen-cli/src/generate/enumeration.rs`.
* `quoteWrapperFn`, `quoteWrapperBody` and `foldFixedBlocks` embed
  `cs-bindgen-cli/src/generate/func.rs`.
* `RustString.fromString` / `RawString.intoString` embed the `RawString`
  conversions of `cs-bindgen/src/lib.rs`.

Rust panics (`panic!`, `todo!`, `unreachable!`, `assert_eq!`, `expect`) are
embedded as `Except.error (GenError.panic msg)`: the generation functions in
the source return plain token streams and report every failure by panicking,
so the embedding's single error constructor records the panic message.
Generated token streams are embedded as small structured ASTs (`CsTy`,
`WrapperBody`, `ComplexEnumOutput`, ...) that record exactly the information
the emitted C# declarations carry.
-/

namespace CsBindgen

/-- Identity of a named type (`schematic::TypeName`): the type's own name and
the module it was declared in. -/
structure TypeName where
  name : String
  module : String
deriving DecidableEq

/-- Primitive integer types usable as an enum's explicit discriminant repr
(the argument type of `generate::quote_primitive_type`). -/
inductive Prim where
  | u8 | u16 | u32 | u64 | usize
  | i8 | i16 | i32 | i64 | isize
deriving DecidableEq

mutual

/-- The recursive type-description tree (`schematic::Schema`), with exactly
the variants matched by `raw_type_from_schema` in
`cs-bindgen-cli/src/generate/binding.rs`. -/
inductive Schema where
  | unit | bool | char
  | i8 | i16 | i32 | i64 | isize
  | u8 | u16 | u32 | u64 | usize
  | i128 | u128
  | f32 | f64
  | string (name : TypeName)
  | str
  | enum_ (e : EnumSchema)
  | struct_ (name : TypeName) (fields : List SField)
  | unitStruct (name : TypeName)
  | newtypeStruct (name : TypeName) (inner : SField)
  | tupleStruct (name : TypeName) (fields : List SField)
  | array (elem : Schema) (len : Nat)
  | slice (elem : Schema)
  | seq (name : TypeName) (elem : Schema)
  | option (inner : Schema)
  | tuple (elems : List Schema)
  | map (key : Schema) (value : Schema)

/-- One field of a struct-like schema or enum variant (`schematic::Field`):
an optional declared name and the field's schema. -/
inductive SField where
  | mk (name : Option String) (schema : Schema)

/-- One enum variant (`schematic::Variant`): Unit (with an optional explicit
discriminant, carried as opaque literal text), Tuple, or Struct. -/
inductive Variant where
  | unit (name : String) (discriminant : Option String)
  | tuple (name : String) (fields : List SField)
  | struct (name : String) (fields : List SField)

/-- An enum schema (`schematic::Enum`): name, optional explicit discriminant
repr, and the ordered list of variants. -/
inductive EnumSchema where
  | mk (name : TypeName) (reprStorage : Option Prim) (variants : List Variant)

end

/-- The declared field name of a schema field. -/
def SField.name : SField → Option String
  | .mk n _ => n

/-- The schema of a schema field. -/
def SField.schema : SField → Schema
  | .mk _ s => s

/-- The name of an enum variant (`Variant::name`). -/
def Variant.name : Variant → String
  | .unit n _ => n
  | .tuple n _ => n
  | .struct n _ => n

/-- The fields of an enum variant (`Variant::fields`): a Unit variant has
none, Tuple and Struct variants have their declared field list. -/
def Variant.fields : Variant → List SField
  | .unit _ _ => []
  | .tuple _ fs => fs
  | .struct _ fs => fs

/-- Whether the variant is a Unit variant. -/
def Variant.isUnit : Variant → Bool
  | .unit _ _ => true
  | _ => false

/-- The type name of an enum schema. -/
def EnumSchema.name : EnumSchema → TypeName
  | .mk n _ _ => n

/-- The optional explicit discriminant repr of an enum schema. -/
def EnumSchema.reprStorage : EnumSchema → Option Prim
  | .mk _ r _ => r

/-- The ordered variants of an enum schema. -/
def EnumSchema.variants : EnumSchema → List Variant
  | .mk _ _ vs => vs

/-- `Enum::has_data`: true iff any variant is non-Unit. -/
def EnumSchema.hasData (e : EnumSchema) : Bool :=
  e.variants.any (fun v => !v.isUnit)

/-- Lightweight type reference (`cs_bindgen_shared::Repr`), with exactly the
variants matched by `raw_type_from_repr` in `binding.rs`. -/
inductive Repr where
  | unit | bool | char
  | i8 | i16 | i32 | i64 | isize
  | u8 | u16 | u32 | u64 | usize
  | f32 | f64
  | named (name : TypeName)
  | box (inner : Repr)
  | ref (inner : Repr)
  | vec (elem : Repr)
  | slice (elem : Repr)
  | string | str
  | array (elem : Repr) (len : Nat)
  | option (inner : Repr)
  | result (okTy : Repr) (errTy : Repr)
deriving DecidableEq

/-- The marshaling style of an exported named type
(`cs_bindgen_shared::BindingStyle`): opaque handle, or by-value with the
type's own schema. -/
inductive BindingStyle where
  | handle
  | value (schema : Schema)

/-- Whether the binding style is `Handle`. -/
def BindingStyle.isHandle : BindingStyle → Bool
  | .handle => true
  | .value _ => false

/-- An exported named type (`cs_bindgen_shared::NamedType`). -/
structure NamedType where
  name : String
  bindingStyle : BindingStyle
  schema : Schema

/-- The registry (`generate::TypeMap`): maps a type identity to its exported
named-type entry.  Embedded as an association list. -/
def TypeMap := List (TypeName × NamedType)

/-- Registry lookup (`TypeMap::get`). -/
def lookupType : TypeMap → TypeName → Option NamedType
  | [], _ => none
  | (k, v) :: rest, n => if k = n then some v else lookupType rest n

/-- A raw wire-type declaration as emitted by the Raw-Representation
Resolver: one of the C# type tokens produced by `raw_type_from_repr` /
`raw_type_from_schema`.  `rawVec` denotes the 3-field `{ptr, len, capacity}`
`RawVec` record and `rawSlice` the 2-field `{ptr, len}` `RawSlice` record
declared in the fixed prelude; `rawRef name` denotes the reference
`global::__name__Raw` produced by `named_type_raw_reference`; `handlePtr`
denotes the canonical opaque handle pointer type shared by all handle
types. -/
inductive CsTy where
  | byte | sbyte | short | int | long | intPtr
  | ushort | uint | ulong | uintPtr
  | float | double
  | rawVec | rawSlice
  | handlePtr
  | rawRef (name : String)
deriving DecidableEq

/-- A generation failure.  Every failure in the generator's source is a Rust
panic (`panic!`, `todo!`, `unreachable!`, `assert_eq!`, `expect`); the
constructor records the panic message. -/
inductive GenError where
  | panic (msg : String)
deriving DecidableEq

/-- Whether the generation failure is a process panic.  Every failure path
in the source panics, so this is true of every `GenError`. -/
def GenError.isPanic : GenError → Bool
  | .panic _ => true

/-- Modelled from the spec: `class::quote_handle_ptr` (in
`generate/class.rs`, not under `src/`) returns the one canonical opaque
pointer-sized declaration shared by all handle types. -/
def quoteHandlePtr : CsTy := .handlePtr

/-- Modelled from the spec: `generate::quote_primitive_type` (in
`generate/mod.rs`, not under `src/`) maps a primitive integer repr to the
same-width C# integer of the section 4.1 table, pointer-sized integers to
the pointer-sized C# integers. -/
def quotePrimitiveType : Prim → CsTy
  | .u8 => .byte
  | .u16 => .ushort
  | .u32 => .uint
  | .u64 => .ulong
  | .usize => .uintPtr
  | .i8 => .sbyte
  | .i16 => .short
  | .i32 => .int
  | .i64 => .long
  | .isize => .intPtr

/-- Modelled from the spec: `generate::STRING_SCHEMA` (in
`generate/mod.rs`, not under `src/`) is the schema describing the built-in
owned text type; `raw_type_from_schema` compares a string schema against it
to recognize owned text. -/
def stringTypeName : TypeName := ⟨"String", "alloc::string"⟩

/-- The canonical owned-text schema (`STRING_SCHEMA`). -/
def stringSchema : Schema := .string stringTypeName

/-- The panic message of `raw_type_from_repr` / `raw_type_from_schema` when
a named type has no registry entry.  The source formats the missing
`TypeName` with its `Debug` representation; the embedding renders the same
identity as `module::name`. -/
def noExportMsg (n : TypeName) : String :=
  "No export found for named type " ++ n.module ++ "::" ++ n.name

/-- The discriminant storage type of an enum
(`enumeration::quote_discriminant_type`): the explicitly declared repr when
present, else a pointer-sized `IntPtr`. -/
def quoteDiscriminantType (e : EnumSchema) : CsTy :=
  match e.reprStorage with
  | some p => quotePrimitiveType p
  | none => .intPtr

/-- The branch of `raw_type_from_schema` shared by the four struct-like
schema variants: look up the type name (panicking when it has no registry
entry); `Handle` style yields the canonical handle pointer, value style
the named raw-struct reference `global::__name__Raw`. -/
def rawTypeForNamedStruct (n : TypeName) (types : TypeMap) : Except GenError CsTy :=
  match lookupType types n with
  | none => .error (.panic (noExportMsg n))
  | some ex =>
      if ex.bindingStyle.isHandle then .ok quoteHandlePtr
      else .ok (.rawRef n.name)

/-- The Raw-Representation Resolver on schemas
(`binding::raw_type_from_schema`). -/
def rawTypeFromSchema (schema : Schema) (types : TypeMap) : Except GenError CsTy :=
  match schema with
  | .unit => .ok .byte
  | .bool => .ok .byte
  | .char => .ok .uint
  | .i8 => .ok .sbyte
  | .i16 => .ok .short
  | .i32 => .ok .int
  | .i64 => .ok .long
  | .isize => .ok .intPtr
  | .u8 => .ok .byte
  | .u16 => .ok .ushort
  | .u32 => .ok .uint
  | .u64 => .ok .ulong
  | .usize => .ok .uintPtr
  | .f32 => .ok .float
  | .f64 => .ok .double
  | .string n =>
      -- `schema == &*STRING_SCHEMA` in the source: both sides are `String`
      -- schemas, so the comparison reduces to comparing the carried name.
      if n = stringTypeName then .ok .rawVec
      else .error (.panic ("Handle unknown custom string types"))
  | .str => .ok .rawSlice
  | .enum_ e =>
      match lookupType types e.name with
      | none => .error (.panic (noExportMsg e.name))
      | some ex =>
          if ex.bindingStyle.isHandle then .ok quoteHandlePtr
          else if e.hasData then .ok (.rawRef e.name.name)
          else .ok (quoteDiscriminantType e)
  | .struct_ n _ => rawTypeForNamedStruct n types
  | .unitStruct n => rawTypeForNamedStruct n types
  | .newtypeStruct n _ => rawTypeForNamedStruct n types
  | .tupleStruct n _ => rawTypeForNamedStruct n types
  | .array _ _ => .error (.panic ("Support passing fixed-size arrays"))
  | .slice _ => .ok .rawSlice
  | .seq n _ =>
      if n.name = "Vec" ∧ n.module = "alloc::vec" then .ok .rawVec
      else .error (.panic ("Handle unknown sequence types"))
  | .option _ => .error (.panic ("Generate argument binding"))
  | .tuple _ => .error (.panic ("Generate argument binding"))
  | .map _ _ => .error (.panic ("Generate argument binding"))
  | .i128 => .error (.panic ("Invalid types should have already been handled"))
  | .u128 => .error (.panic ("Invalid types should have already been handled"))

/-- The Raw-Representation Resolver on lightweight type references
(`binding::raw_type_from_repr`). -/
def rawTypeFromRepr (r : Repr) (types : TypeMap) : Except GenError CsTy :=
  match r with
  | .unit => .ok .byte
  | .bool => .ok .byte
  | .char => .ok .uint
  | .i8 => .ok .sbyte
  | .i16 => .ok .short
  | .i32 => .ok .int
  | .i64 => .ok .long
  | .isize => .ok .intPtr
  | .u8 => .ok .byte
  | .u16 => .ok .ushort
  | .u32 => .ok .uint
  | .u64 => .ok .ulong
  | .usize => .ok .uintPtr
  | .f32 => .ok .float
  | .f64 => .ok .double
  | .named n =>
      match lookupType types n with
      | none => .error (.panic (noExportMsg n))
      | some ex =>
          match ex.bindingStyle with
          | .handle => .ok quoteHandlePtr
          | .value s => rawTypeFromSchema s types
  | .box _ => .ok .intPtr
  | .ref _ => .ok .intPtr
  | .vec _ => .ok .rawVec
  | .slice _ => .ok .rawSlice
  | .string => .ok .rawVec
  | .str => .ok .rawSlice
  | .array _ _ => .error (.panic ("Support arrays"))
  | .option _ => .error (.panic ("Support optional types"))
  | .result _ _ => .error (.panic ("Support `Result`"))

/-! ## Enum code generation (`cs-bindgen-cli/src/generate/enumeration.rs`) -/

/-- Modelled from the spec: identifier/casing normalization (the `heck`
crate, an excluded collaborator per section 1) is embedded as the identity
on names. -/
def toCamelCase (s : String) : String := s

/-- Modelled from the spec: `to_mixed_case` of the excluded casing
collaborator, embedded as the identity on names. -/
def toMixedCase (s : String) : String := s

/-- Modelled from the spec: the target-grammar literal parse performed by
`syn::parse_str::<syn::Expr>` on a discriminant's text (the `syn` crate is
an excluded collaborator).  Per section 7, a discriminant literal is
malformed iff its text does not parse as a valid integer literal: the model
accepts an optional leading minus sign followed by one or more decimal
digits. -/
def parseDiscriminant (s : String) : Option Int :=
  let core : List Char → Option Nat := fun digits =>
    if digits ≠ [] ∧ digits.all Char.isDigit then
      some (digits.foldl (fun acc c => acc * 10 + (c.toNat - 48)) 0)
    else none
  match s.toList with
  | '-' :: rest => (core rest).map (fun n => -(n : Int))
  | l => (core l).map (fun n => (n : Int))

/-- The declaration emitted for one variant of a simple enum by
`quote_simple_enum_binding`: the variant identifier, and the optional
explicit discriminant literal re-emitted from the source text. -/
structure SimpleVariantDecl where
  ident : String
  discriminant : Option String
deriving DecidableEq

/-- The C# enum declaration emitted by `quote_simple_enum_binding`. -/
structure SimpleEnumDecl where
  ident : String
  variants : List SimpleVariantDecl
deriving DecidableEq

/-- Traversal of a list by a fallible step, failing on the first error: the
embedding of consuming a panicking iterator while building a token
stream. -/
def exceptMapList (f : α → Except GenError β) : List α → Except GenError (List β)
  | [] => .ok []
  | a :: l =>
    match f a with
    | .error e => .error e
    | .ok b =>
        match exceptMapList f l with
        | .error e => .error e
        | .ok r => .ok (b :: r)

/-- The per-variant step of `quote_simple_enum_binding`: a non-Unit variant
panics; an explicit discriminant is parsed (`syn::parse_str`, panicking on
failure) and its text re-emitted verbatim. -/
def quoteSimpleVariant : Variant → Except GenError SimpleVariantDecl
  | .unit n d =>
      match d with
      | none => .ok ⟨n, none⟩
      | some t =>
          if (parseDiscriminant t).isSome then .ok ⟨n, some t⟩
          else .error (.panic ("Failed to parse discriminant as a `LitInt`"))
  | _ => .error (.panic ("Simple enum can only have unit variants"))

/-- `enumeration::quote_simple_enum_binding`: emit a plain C# enum with one
entry per Unit variant, re-emitting explicit discriminant literals
verbatim. -/
def quoteSimpleEnumBinding (ex : NamedType) (e : EnumSchema) :
    Except GenError SimpleEnumDecl :=
  match exceptMapList quoteSimpleVariant e.variants with
  | .error err => .error err
  | .ok vs => .ok ⟨ex.name, vs⟩

/-- Modelled from the spec: the target language's enum-member value
semantics (section 4.3's default successor rule).  An entry with an
explicit literal takes its parsed value; an entry without one takes
`previous + 1`, starting at 0 for the first entry. -/
def csEnumValues : List SimpleVariantDecl → Int → List (String × Int)
  | [], _ => []
  | v :: rest, next =>
      match v.discriminant with
      | none => (v.ident, next) :: csEnumValues rest (next + 1)
      | some t =>
          let value := (parseDiscriminant t).getD 0
          (v.ident, value) :: csEnumValues rest (value + 1)

/-- One field of an overlay union emitted by `quote_complex_enum_binding`:
its `[FieldOffset(..)]` placement, the per-variant raw record type it is
declared with, and the field name. -/
structure UnionField where
  offset : Nat
  tyName : String
  fieldName : String
deriving DecidableEq

/-- One per-variant raw field-record declaration
(`{Variant}__RawArg` / `{Variant}__RawReturn`). -/
structure RawRecordDecl where
  ident : String
  fields : List (String × CsTy)
deriving DecidableEq

/-- The declarations emitted for one variant of a data-carrying enum: the
idiomatic value type implementing the capability-marker interface (its
field types come from the excluded `quote_cs_type`, so only the field
identifiers are recorded), and the two raw records. -/
structure VariantBlock where
  structIdent : String
  interfaceImplemented : String
  csFieldIdents : List String
  argRecord : RawRecordDecl
  returnRecord : RawRecordDecl
deriving DecidableEq

/-- The full output of `quote_complex_enum_binding`: capability-marker
interface, per-variant declarations, and the two overlay unions (each a
named struct with `[StructLayout(LayoutKind.Explicit)]` and a list of
offset-placed fields). -/
structure ComplexEnumOutput where
  interfaceIdent : String
  variantBlocks : List VariantBlock
  argUnionIdent : String
  argUnionFields : List UnionField
  returnUnionIdent : String
  returnUnionFields : List UnionField
deriving DecidableEq

/-- The field identifier used for a variant field: the declared name
camel-cased, or the synthesized positional `Element{index}`. -/
def variantFieldIdent (index : Nat) (f : SField) : String :=
  match f.name with
  | some n => toCamelCase n
  | none => "Element" ++ toString index

/-- The declarations emitted for one variant by
`quote_complex_enum_binding`: resolve every field's raw type (via the
Raw-Representation Resolver, panicking inside the emission on failure) and
build the idiomatic struct plus the two raw records. -/
def quoteVariantBlock (interfaceIdent : String) (types : TypeMap) (v : Variant) :
    Except GenError VariantBlock :=
  let idents := v.fields.enum.map fun (i, f) => variantFieldIdent i f
  match exceptMapList (fun f => rawTypeFromSchema f.schema types) v.fields with
  | .error err => .error err
  | .ok rawTys =>
      let rawFields := idents.zip rawTys
      .ok
        { structIdent := v.name
          interfaceImplemented := interfaceIdent
          csFieldIdents := idents
          argRecord := ⟨v.name ++ "__RawArg", rawFields⟩
          returnRecord := ⟨v.name ++ "__RawReturn", rawFields⟩ }

/-- `enumeration::quote_complex_enum_binding`: asserts the binding style is
`Value` (panicking otherwise), then emits the marker interface, one block
of declarations per variant, and the two overlay unions whose every field
is placed at offset 0. -/
def quoteComplexEnumBinding (ex : NamedType) (e : EnumSchema) (types : TypeMap) :
    Except GenError ComplexEnumOutput :=
  match ex.bindingStyle with
  | .handle => .error (.panic ("Right now we only support exporting complex enums by value"))
  | .value _ =>
    let interfaceIdent := "I" ++ ex.name
    match exceptMapList (quoteVariantBlock interfaceIdent types) e.variants with
    | .error err => .error err
    | .ok blocks =>
      .ok
        { interfaceIdent := interfaceIdent
          variantBlocks := blocks
          argUnionIdent := ex.name ++ "__RawArg"
          argUnionFields :=
            e.variants.map fun v => ⟨0, v.name ++ "__RawArg", v.name⟩
          returnUnionIdent := ex.name ++ "__RawReturn"
          returnUnionFields :=
            e.variants.map fun v => ⟨0, v.name ++ "__RawReturn", v.name⟩ }

/-- The output of `quote_enum_binding`: either a simple enum declaration or
the complex-enum declaration set. -/
inductive EnumBindingOutput where
  | simple (decl : SimpleEnumDecl)
  | complex (out : ComplexEnumOutput)
deriving DecidableEq

/-- `enumeration::quote_enum_binding`: dispatch on `has_data()` between the
complex and simple generation strategies. -/
def quoteEnumBinding (ex : NamedType) (e : EnumSchema) (types : TypeMap) :
    Except GenError EnumBindingOutput :=
  if e.hasData then (quoteComplexEnumBinding ex e types).map .complex
  else (quoteSimpleEnumBinding ex e).map .simple

/-! ## Wrapper synthesis (`cs-bindgen-cli/src/generate/func.rs`) -/

/-- One argument of the raw-binding invocation inside a wrapper body:
either the prepended receiver expression, or `__bindings.__IntoRaw(arg)`
for a declared argument (`quote_invoke_args`). -/
inductive InvokeArg where
  | receiver
  | intoRaw (ident : String)
deriving DecidableEq

/-- The innermost statement of a wrapper body: the raw-binding call with
its argument list, and whether its result is converted via
`__bindings.__FromRaw` and assigned to `__ret` (done exactly when the
export declares an output). -/
structure RawInvoke where
  bindingIdent : String
  args : List InvokeArg
  assignsRet : Bool
deriving DecidableEq

/-- A wrapper-function body: the raw invocation wrapped in zero or more
`fixed (char* __fixed_x = x) { ... }` pinning blocks. -/
inductive WrapperBody where
  | invoke (i : RawInvoke)
  | fixedBlock (argIdent : String) (inner : WrapperBody)
deriving DecidableEq

/-- `func::fold_fixed_blocks`: fold over the arguments in declaration
order, wrapping the accumulated body in a `fixed` pinning block for every
argument whose schema is the string kind (`Schema::String`) and leaving the
body unchanged for every other schema. -/
def foldFixedBlocks (baseInvoke : WrapperBody) (args : List (String × Schema)) :
    WrapperBody :=
  args.foldl
    (fun body arg =>
      match arg.2 with
      | .string _ => .fixedBlock (toMixedCase arg.1) body
      | _ => body)
    baseInvoke

/-- `func::quote_wrapper_body`: build the invocation argument list
(receiver first when present, then `__IntoRaw` of each argument), form the
raw call (assigning `__ret` from `__FromRaw` when there is an output), and
wrap it with `fold_fixed_blocks`. -/
def quoteWrapperBody (bindingName : String) (hasReceiver : Bool)
    (args : List (String × Schema)) (hasOutput : Bool) : WrapperBody :=
  let invokeArgs := args.map (fun arg => InvokeArg.intoRaw (toMixedCase arg.1))
  let invokeArgs := if hasReceiver then .receiver :: invokeArgs else invokeArgs
  foldFixedBlocks
    (.invoke ⟨bindingName, invokeArgs, hasOutput⟩) args

/-- The wrapper function emitted by `quote_wrapper_fn`: its (camel-cased)
name, staticness, whether a `__ret` variable is declared before the body,
the body inside the `unsafe` block, and whether `return __ret;` follows the
`unsafe` block (after every pinning scope has closed). -/
structure WrapperFn where
  ident : String
  isStatic : Bool
  declaresRet : Bool
  body : WrapperBody
  returnsRetAfterBody : Bool
deriving DecidableEq

/-- `func::quote_wrapper_fn`. -/
def quoteWrapperFn (name : String) (bindingName : String) (hasReceiver : Bool)
    (args : List (String × Schema)) (hasOutput : Bool) : WrapperFn :=
  { ident := toCamelCase name
    isStatic := !hasReceiver
    declaresRet := hasOutput
    body := quoteWrapperBody bindingName hasReceiver args hasOutput
    returnsRetAfterBody := hasOutput }

/-- The pinning scopes of a wrapper body, listed outermost first, together
with the innermost raw invocation. -/
def WrapperBody.scopes : WrapperBody → List String × RawInvoke
  | .invoke i => ([], i)
  | .fixedBlock n inner =>
      let (rest, i) := inner.scopes
      (n :: rest, i)

/-- The arguments of a wrapper that the generator pins: those whose schema
is the string kind, in declaration order. -/
def pinnedArgIdents (args : List (String × Schema)) : List String :=
  (args.filter fun arg =>
      match arg.2 with
      | .string _ => true
      | _ => false).map
    (fun arg => toMixedCase arg.1)

/-! ## Runtime string conversion (`cs-bindgen/src/lib.rs`) -/

/-- A Rust `String` value: its UTF-8 byte contents plus the allocation's
capacity (observable through `String::capacity` and transferred through
`RawString`). -/
structure RustString where
  bytes : List UInt8
  capacity : Nat
deriving DecidableEq

/-- `cs_bindgen::RawString`: the raw 3-field `{ptr, len, capacity}` record.
The buffer ownership transferred through `ptr` is embedded as the byte
contents reachable from the pointer. -/
structure RawString where
  data : List UInt8
  len : Nat
  capacity : Nat
deriving DecidableEq

/-- `RawString::from_string`: capture the string's buffer pointer, length
and capacity, forgetting the string (ownership transfer). -/
def RustString.fromString (s : RustString) : RawString :=
  { data := s.bytes
    len := s.bytes.length
    capacity := s.capacity }

/-- `RawString::into_string`: `String::from_raw_parts(ptr, len, capacity)`
reconstructs the string from the first `len` bytes of the transferred
buffer and the recorded capacity. -/
def RawString.intoString (raw : RawString) : RustString :=
  { bytes := raw.data.take raw.len
    capacity := raw.capacity }

/-- Modelled from the spec: the native side lowers a boolean to its 1-byte
integer wire form (section 4.1, `false = 0`, `true = 1`); the lowering
itself is the native language's ABI, outside the generator's source. -/
def intoRawBool (b : Bool) : Nat := if b then 1 else 0

/-- The boolean read-back emitted by `quote_wrapper_fn` in
`cs-bindgen-cli/src/main.rs` for a raw boolean byte result:
`return rawResult != 0;`. -/
def fromRawBool (n : Nat) : Bool := n ≠ 0

/-- Modelled from the spec: a character crosses the boundary as its 4-byte
Unicode scalar value (section 4.1). -/
def intoRawChar (c : Char) : Nat := c.toNat

/-- Modelled from the spec: reconstructing a character from its transferred
Unicode scalar value. -/
def fromRawChar (n : Nat) : Char := Char.ofNat n

/-! ## Concrete fixtures -/

/-- The recognized owned growable sequence origin (`Vec` from `alloc::vec`),
as tested by `raw_type_from_schema`. -/
def vecTypeName : TypeName := ⟨"Vec", "alloc::vec"⟩

/-- The Unit-only example enum `[A, B(=5), C]` of section 8's discriminant
law. -/
def abcEnum : EnumSchema :=
  .mk ⟨"E", "demo"⟩ none
    [.unit "A" none, .unit "B" (some "5"), .unit "C" none]

/-- The export entry for `abcEnum`. -/
def abcExport : NamedType := ⟨"E", .value (.enum_ abcEnum), .enum_ abcEnum⟩

/-- The `Suit{Coins, Bamboo, Characters}` enum of section 8's end-to-end
example 2: Unit-only, no explicit repr. -/
def suitEnum : EnumSchema :=
  .mk ⟨"Suit", "mahjong"⟩ none
    [.unit "Coins" none, .unit "Bamboo" none, .unit "Characters" none]

/-- The by-value export entry for `suitEnum`. -/
def suitExport : NamedType := ⟨"Suit", .value (.enum_ suitEnum), .enum_ suitEnum⟩

/-- A registry holding exactly the `Suit` export. -/
def suitTypes : TypeMap := [(⟨"Suit", "mahjong"⟩, suitExport)]

/-- A data-carrying example enum with two variants, one tuple-like and one
Unit. -/
def tileEnum : EnumSchema :=
  .mk ⟨"Tile", "demo"⟩ none
    [.tuple "Simple" [.mk (some "number") .u8], .unit "Wind" none]

/-- The by-value export entry for `tileEnum`. -/
def tileExport : NamedType := ⟨"Tile", .value (.enum_ tileEnum), .enum_ tileEnum⟩

/-- A named type exported with `Handle` style. -/
def handleExport : NamedType := ⟨"Obj", .handle, .unitStruct ⟨"Obj", "demo"⟩⟩

/-- A registry holding exactly the `Obj` handle export. -/
def handleTypes : TypeMap := [(⟨"Obj", "demo"⟩, handleExport)]

/-! ## Helper lemmas on the fallible traversal -/

theorem exceptMapList_ok_length {f : α → Except GenError β} :
    ∀ {l : List α} {r : List β}, exceptMapList f l = .ok r → r.length = l.length := by
  intro l
  induction l with
  | nil => intro r h; simp [exceptMapList] at h; simp [← h]
  | cons a l ih =>
      intro r h
      simp only [exceptMapList] at h
      cases hfa : f a with
      | error e => rw [hfa] at h; exact absurd h (by simp)
      | ok b =>
          rw [hfa] at h
          cases hrest : exceptMapList f l with
          | error e => rw [hrest] at h; exact absurd h (by simp)
          | ok r' =>
              rw [hrest] at h
              cases h
              simp [ih hrest]

theorem exceptMapList_ok_mem {f : α → Except GenError β} :
    ∀ {l : List α} {r : List β}, exceptMapList f l = .ok r →
      ∀ {a : α}, a ∈ l → ∃ b ∈ r, f a = .ok b := by
  intro l
  induction l with
  | nil => intro r _ a ha; cases ha
  | cons x l ih =>
      intro r h a ha
      simp only [exceptMapList] at h
      cases hfx : f x with
      | error e => rw [hfx] at h; exact absurd h (by simp)
      | ok b =>
          rw [hfx] at h
          cases hrest : exceptMapList f l with
          | error e => rw [hrest] at h; exact absurd h (by simp)
          | ok r' =>
              rw [hrest] at h
              cases h
              rcases List.mem_cons.1 ha with rfl | ha'
              · exact ⟨b, List.mem_cons_self _ _, hfx⟩
              · obtain ⟨b', hb', hfb'⟩ := ih hrest ha'
                exact ⟨b', List.mem_cons_of_mem _ hb', hfb'⟩

theorem exceptMapList_ok_mem_rev {f : α → Except GenError β} :
    ∀ {l : List α} {r : List β}, exceptMapList f l = .ok r →
      ∀ {b : β}, b ∈ r → ∃ a ∈ l, f a = .ok b := by
  intro l
  induction l with
  | nil =>
      intro r h b hb
      simp [exceptMapList] at h
      subst h
      cases hb
  | cons x l ih =>
      intro r h b hb
      simp only [exceptMapList] at h
      cases hfx : f x with
      | error e => rw [hfx] at h; exact absurd h (by simp)
      | ok b' =>
          rw [hfx] at h
          cases hrest : exceptMapList f l with
          | error e => rw [hrest] at h; exact absurd h (by simp)
          | ok r' =>
              rw [hrest] at h
              cases h
              rcases List.mem_cons.1 hb with rfl | hb'
              · exact ⟨x, List.mem_cons_self _ _, hfx⟩
              · obtain ⟨a, ha, hfa⟩ := ih hrest hb'
                exact ⟨a, List.mem_cons_of_mem _ ha, hfa⟩

theorem exceptMapList_ok_map {f : α → Except GenError β} {g : β → γ} {h' : α → γ}
    (hf : ∀ a b, f a = .ok b → g b = h' a) :
    ∀ {l : List α} {r : List β}, exceptMapList f l = .ok r → r.map g = l.map h' := by
  intro l
  induction l with
  | nil => intro r h; simp [exceptMapList] at h; simp [← h]
  | cons a l ih =>
      intro r h
      simp only [exceptMapList] at h
      cases hfa : f a with
      | error e => rw [hfa] at h; exact absurd h (by simp)
      | ok b =>
          rw [hfa] at h
          cases hrest : exceptMapList f l with
          | error e => rw [hrest] at h; exact absurd h (by simp)
          | ok r' =>
              rw [hrest] at h
              cases h
              simp [hf a b hfa, ih hrest]

theorem scopes_foldFixedBlocks :
    ∀ (args : List (String × Schema)) (b : WrapperBody),
      (foldFixedBlocks b args).scopes =
        ((pinnedArgIdents args).reverse ++ b.scopes.1, b.scopes.2) := by
  intro args
  induction args with
  | nil => intro b; simp [foldFixedBlocks, pinnedArgIdents]
  | cons arg rest ih =>
      intro b
      obtain ⟨n, s⟩ := arg
      cases s with
      | string nm =>
          have step : foldFixedBlocks b ((n, Schema.string nm) :: rest) =
              foldFixedBlocks (.fixedBlock (toMixedCase n) b) rest := rfl
          rw [step, ih]
          simp [pinnedArgIdents, WrapperBody.scopes, List.filter_cons]
      | unit => rw [show foldFixedBlocks b ((n, Schema.unit) :: rest) = foldFixedBlocks b rest from rfl, ih]; simp [pinnedArgIdents, List.filter_cons]
      | bool => rw [show foldFixedBlocks b ((n, Schema.bool) :: rest) = foldFixedBlocks b rest from rfl, ih]; simp [pinnedArgIdents, List.filter_cons]
      | char => rw [show foldFixedBlocks b ((n, Schema.char) :: rest) = foldFixedBlocks b rest from rfl, ih]; simp [pinnedArgIdents, List.filter_cons]
      | i8 => rw [show foldFixedBlocks b ((n, Schema.i8) :: rest) = foldFixedBlocks b rest from rfl, ih]; simp [pinnedArgIdents, List.filter_cons]
      | i16 => rw [show foldFixedBlocks b ((n, Schema.i16) :: rest) = foldFixedBlocks b rest from rfl, ih]; simp [pinnedArgIdents, List.filter_cons]
      | i32 => rw [show foldFixedBlocks b ((n, Schema.i32) :: rest) = foldFixedBlocks b rest from rfl, ih]; simp [pinnedArgIdents, List.filter_cons]
      | i64 => rw [show foldFixedBlocks b ((n, Schema.i64) :: rest) = foldFixedBlocks b rest from rfl, ih]; simp [pinnedArgIdents, List.filter_cons]
      | isize => rw [show foldFixedBlocks b ((n, Schema.isize) :: rest) = foldFixedBlocks b rest from rfl, ih]; simp [pinnedArgIdents, List.filter_cons]
      | u8 => rw [show foldFixedBlocks b ((n, Schema.u8) :: rest) = foldFixedBlocks b rest from rfl, ih]; simp [pinnedArgIdents, List.filter_cons]
      | u16 => rw [show foldFixedBlocks b ((n, Schema.u16) :: rest) = foldFixedBlocks b rest from rfl, ih]; simp [pinnedArgIdents, List.filter_cons]
      | u32 => rw [show foldFixedBlocks b ((n, Schema.u32) :: rest) = foldFixedBlocks b rest from rfl, ih]; simp [pinnedArgIdents, List.filter_cons]
      | u64 => rw [show foldFixedBlocks b ((n, Schema.u64) :: rest) = foldFixedBlocks b rest from rfl, ih]; simp [pinnedArgIdents, List.filter_cons]
      | usize => rw [show foldFixedBlocks b ((n, Schema.usize) :: rest) = foldFixedBlocks b rest from rfl, ih]; simp [pinnedArgIdents, List.filter_cons]
      | i128 => rw [show foldFixedBlocks b ((n, Schema.i128) :: rest) = foldFixedBlocks b rest from rfl, ih]; simp [pinnedArgIdents, List.filter_cons]
      | u128 => rw [show foldFixedBlocks b ((n, Schema.u128) :: rest) = foldFixedBlocks b rest from rfl, ih]; simp [pinnedArgIdents, List.filter_cons]
      | f32 => rw [show foldFixedBlocks b ((n, Schema.f32) :: rest) = foldFixedBlocks b rest from rfl, ih]; simp [pinnedArgIdents, List.filter_cons]
      | f64 => rw [show foldFixedBlocks b ((n, Schema.f64) :: rest) = foldFixedBlocks b rest from rfl, ih]; simp [pinnedArgIdents, List.filter_cons]
      | str => rw [show foldFixedBlocks b ((n, Schema.str) :: rest) = foldFixedBlocks b rest from rfl, ih]; simp [pinnedArgIdents, List.filter_cons]
      | enum_ e => rw [show foldFixedBlocks b ((n, Schema.enum_ e) :: rest) = foldFixedBlocks b rest from rfl, ih]; simp [pinnedArgIdents, List.filter_cons]
      | struct_ nm fs => rw [show foldFixedBlocks b ((n, Schema.struct_ nm fs) :: rest) = foldFixedBlocks b rest from rfl, ih]; simp [pinnedArgIdents, List.filter_cons]
      | unitStruct nm => rw [show foldFixedBlocks b ((n, Schema.unitStruct nm) :: rest) = foldFixedBlocks b rest from rfl, ih]; simp [pinnedArgIdents, List.filter_cons]
      | newtypeStruct nm f => rw [show foldFixedBlocks b ((n, Schema.newtypeStruct nm f) :: rest) = foldFixedBlocks b rest from rfl, ih]; simp [pinnedArgIdents, List.filter_cons]
      | tupleStruct nm fs => rw [show foldFixedBlocks b ((n, Schema.tupleStruct nm fs) :: rest) = foldFixedBlocks b rest from rfl, ih]; simp [pinnedArgIdents, List.filter_cons]
      | array el len => rw [show foldFixedBlocks b ((n, Schema.array el len) :: rest) = foldFixedBlocks b rest from rfl, ih]; simp [pinnedArgIdents, List.filter_cons]
      | slice el => rw [show foldFixedBlocks b ((n, Schema.slice el) :: rest) = foldFixedBlocks b rest from rfl, ih]; simp [pinnedArgIdents, List.filter_cons]
      | seq nm el => rw [show foldFixedBlocks b ((n, Schema.seq nm el) :: rest) = foldFixedBlocks b rest from rfl, ih]; simp [pinnedArgIdents, List.filter_cons]
      | option inner => rw [show foldFixedBlocks b ((n, Schema.option inner) :: rest) = foldFixedBlocks b rest from rfl, ih]; simp [pinnedArgIdents, List.filter_cons]
      | tuple els => rw [show foldFixedBlocks b ((n, Schema.tuple els) :: rest) = foldFixedBlocks b rest from rfl, ih]; simp [pinnedArgIdents, List.filter_cons]
      | map k v => rw [show foldFixedBlocks b ((n, Schema.map k v) :: rest) = foldFixedBlocks b rest from rfl, ih]; simp [pinnedArgIdents, List.filter_cons]

/-! ## Claim theorems -/

/-- C1: for every primitive, string and sequence schema kind, the
Raw-Representation Resolver returns exactly the wire type of the section
4.1 table — unit and boolean map to `byte`, character to `uint`, each
fixed-width integer to the same-width C# integer, pointer-sized integers to
`IntPtr`/`UIntPtr`, owned text and the recognized owned growable sequence
to the `RawVec` record, and borrowed text and borrowed slices to the
`RawSlice` record. -/
theorem raw_type_table (types : TypeMap) :
    rawTypeFromSchema .unit types = .ok .byte ∧
    rawTypeFromSchema .bool types = .ok .byte ∧
    rawTypeFromSchema .char types = .ok .uint ∧
    rawTypeFromSchema .i8 types = .ok .sbyte ∧
    rawTypeFromSchema .i16 types = .ok .short ∧
    rawTypeFromSchema .i32 types = .ok .int ∧
    rawTypeFromSchema .i64 types = .ok .long ∧
    rawTypeFromSchema .isize types = .ok .intPtr ∧
    rawTypeFromSchema .u8 types = .ok .byte ∧
    rawTypeFromSchema .u16 types = .ok .ushort ∧
    rawTypeFromSchema .u32 types = .ok .uint ∧
    rawTypeFromSchema .u64 types = .ok .ulong ∧
    rawTypeFromSchema .usize types = .ok .uintPtr ∧
    rawTypeFromSchema stringSchema types = .ok .rawVec ∧
    (∀ elem : Schema, rawTypeFromSchema (.seq vecTypeName elem) types = .ok .rawVec) ∧
    rawTypeFromSchema .str types = .ok .rawSlice ∧
    (∀ elem : Schema, rawTypeFromSchema (.slice elem) types = .ok .rawSlice) := by
  refine ⟨rfl, rfl, rfl, rfl, rfl, rfl, rfl, rfl, rfl, rfl, rfl, rfl, rfl, rfl,
    fun elem => rfl, rfl, fun elem => rfl⟩

/-- C2 counterexample: resolving a schema that names an unregistered type
fails by panicking — the error constructed for the missing `Foo` entry is a
`GenError.panic`, so the generator does not satisfy "never panics the
process". -/
theorem missing_entry_counterexample :
    rawTypeFromSchema (.struct_ ⟨"Foo", "demo"⟩ []) [] =
      .error (.panic (noExportMsg ⟨"Foo", "demo"⟩)) ∧
    ((rawTypeFromSchema (.struct_ ⟨"Foo", "demo"⟩ []) []).toOption = none) := by
  exact ⟨rfl, rfl⟩

/-- C2 (amended): for every schema or lightweight reference that names a
type with no registry entry, resolution fails deterministically with a
panic whose message names the missing type identity, and produces no
output for that unit; the failure is a Rust panic of the process rather
than a recoverable error. -/
theorem missing_entry_fails_named (types : TypeMap) (tn : TypeName)
    (fields : List SField) (inner : SField)
    (h : lookupType types tn = none) :
    rawTypeFromSchema (.struct_ tn fields) types = .error (.panic (noExportMsg tn)) ∧
    rawTypeFromSchema (.unitStruct tn) types = .error (.panic (noExportMsg tn)) ∧
    rawTypeFromSchema (.newtypeStruct tn inner) types = .error (.panic (noExportMsg tn)) ∧
    rawTypeFromSchema (.tupleStruct tn fields) types = .error (.panic (noExportMsg tn)) ∧
    rawTypeFromRepr (.named tn) types = .error (.panic (noExportMsg tn)) ∧
    (∀ (r : Option Prim) (vs : List Variant),
      rawTypeFromSchema (.enum_ (.mk tn r vs)) types = .error (.panic (noExportMsg tn))) := by
  refine ⟨?_, ?_, ?_, ?_, ?_, ?_⟩
  · simp [rawTypeFromSchema, rawTypeForNamedStruct, h]
  · simp [rawTypeFromSchema, rawTypeForNamedStruct, h]
  · simp [rawTypeFromSchema, rawTypeForNamedStruct, h]
  · simp [rawTypeFromSchema, rawTypeForNamedStruct, h]
  · simp [rawTypeFromRepr, h]
  · intro r vs
    simp [rawTypeFromSchema, EnumSchema.name, h]

/-- C2 witness: instantiating the missing-entry law at the empty registry
and the unregistered type `Bar`. -/
theorem missing_entry_fails_named_witness :
    lookupType [] ⟨"Bar", "demo"⟩ = none ∧
    rawTypeFromSchema (.unitStruct ⟨"Bar", "demo"⟩) [] =
      .error (.panic (noExportMsg ⟨"Bar", "demo"⟩)) :=
  ⟨rfl, (missing_entry_fails_named [] ⟨"Bar", "demo"⟩ [] (.mk none .unit) rfl).2.1⟩

/-- C3 counterexample: a borrowed-text (`str`) argument receives no pinning
scope at all, and with two pinned (string-kind) arguments the innermost
`fixed` scope belongs to the FIRST argument, not the last — both
contradicting the claim. -/
theorem pinning_counterexample :
    foldFixedBlocks (.invoke ⟨"__binding", [.intoRaw "name"], true⟩)
        [("name", Schema.str)] =
      .invoke ⟨"__binding", [.intoRaw "name"], true⟩ ∧
    foldFixedBlocks (.invoke ⟨"__binding", [.intoRaw "first", .intoRaw "second"], true⟩)
        [("first", stringSchema), ("second", stringSchema)] =
      .fixedBlock "second"
        (.fixedBlock "first"
          (.invoke ⟨"__binding", [.intoRaw "first", .intoRaw "second"], true⟩)) := by
  exact ⟨rfl, rfl⟩

/-- C3 (amended): each argument whose schema is the string kind (and only
such arguments — borrowed `str` and slice views receive none) gets its own
nested pinning scope around the raw call; the scopes nest in reverse
argument declaration order, the innermost scope belonging to the first
such argument and the outermost to the last; and the converted result is
returned only after all pinning scopes have closed. -/
theorem wrapper_pinning_structure (name bindingName : String) (hasReceiver : Bool)
    (args : List (String × Schema)) (hasOutput : Bool) :
    (quoteWrapperFn name bindingName hasReceiver args hasOutput).body.scopes =
      ((pinnedArgIdents args).reverse,
        ⟨bindingName,
          (if hasReceiver then [InvokeArg.receiver] else []) ++
            args.map (fun arg => InvokeArg.intoRaw (toMixedCase arg.1)),
          hasOutput⟩) ∧
    (quoteWrapperFn name bindingName hasReceiver args hasOutput).returnsRetAfterBody
      = hasOutput ∧
    (quoteWrapperFn name bindingName hasReceiver args hasOutput).declaresRet
      = hasOutput := by
  refine ⟨?_, rfl, rfl⟩
  show (quoteWrapperBody bindingName hasReceiver args hasOutput).scopes = _
  unfold quoteWrapperBody
  rw [scopes_foldFixedBlocks]
  cases hasReceiver <;> simp [WrapperBody.scopes]

theorem quoteVariantBlock_ok {i : String} {types : TypeMap} {v : Variant}
    {b : VariantBlock} (h : quoteVariantBlock i types v = .ok b) :
    b.structIdent = v.name ∧ b.interfaceImplemented = i ∧
    b.argRecord.ident = v.name ++ "__RawArg" ∧
    b.returnRecord.ident = v.name ++ "__RawReturn" := by
  simp only [quoteVariantBlock] at h
  cases hm : exceptMapList (fun f => rawTypeFromSchema f.schema types) v.fields with
  | error e => rw [hm] at h; exact absurd h (by simp)
  | ok tys =>
      rw [hm] at h
      cases h
      exact ⟨rfl, rfl, rfl, rfl⟩

/-- C4: for every data-carrying enum with N variants generated by value,
both overlay unions contain exactly N fields, one per per-variant raw
record — each union field is declared with the matching variant's raw
record type (`{Variant}__RawArg` on the argument side,
`{Variant}__RawReturn` on the return side), so the unions alias all N
per-variant raw records — every union field placed at offset 0, and the
capability-marker interface has exactly N implementing variant value
types, in variant declaration order. -/
theorem complex_enum_overlay_invariant (ex : NamedType) (e : EnumSchema)
    (types : TypeMap) (out : ComplexEnumOutput)
    (h : quoteComplexEnumBinding ex e types = .ok out) :
    out.argUnionFields.length = e.variants.length ∧
    out.returnUnionFields.length = e.variants.length ∧
    (∀ f ∈ out.argUnionFields, f.offset = 0) ∧
    (∀ f ∈ out.returnUnionFields, f.offset = 0) ∧
    out.variantBlocks.map VariantBlock.structIdent = e.variants.map Variant.name ∧
    (∀ b ∈ out.variantBlocks, b.interfaceImplemented = out.interfaceIdent) ∧
    out.variantBlocks.length = e.variants.length ∧
    out.argUnionFields.map UnionField.tyName
      = out.variantBlocks.map (fun b => b.argRecord.ident) ∧
    out.returnUnionFields.map UnionField.tyName
      = out.variantBlocks.map (fun b => b.returnRecord.ident) ∧
    out.argUnionFields.map UnionField.fieldName = e.variants.map Variant.name ∧
    out.returnUnionFields.map UnionField.fieldName = e.variants.map Variant.name := by
  simp only [quoteComplexEnumBinding] at h
  cases hstyle : ex.bindingStyle with
  | handle => rw [hstyle] at h; exact absurd h (by simp)
  | value s =>
      rw [hstyle] at h
      cases hm : exceptMapList (quoteVariantBlock ("I" ++ ex.name) types) e.variants with
      | error err => rw [hm] at h; exact absurd h (by simp)
      | ok blocks =>
          rw [hm] at h
          cases h
          refine ⟨by simp, by simp, ?_, ?_, ?_, ?_, exceptMapList_ok_length hm,
            ?_, ?_, by simp, by simp⟩
          · intro f hf
            simp only [List.mem_map] at hf
            obtain ⟨v, _, rfl⟩ := hf
            rfl
          · intro f hf
            simp only [List.mem_map] at hf
            obtain ⟨v, _, rfl⟩ := hf
            rfl
          · exact exceptMapList_ok_map (fun v b hb => (quoteVariantBlock_ok hb).1) hm
          · intro b hb
            obtain ⟨v, _, hv⟩ := exceptMapList_ok_mem_rev hm hb
            exact (quoteVariantBlock_ok hv).2.1
          · have hblocks :
                blocks.map (fun b => b.argRecord.ident)
                  = e.variants.map (fun v => v.name ++ "__RawArg") :=
              exceptMapList_ok_map (fun v b hb => (quoteVariantBlock_ok hb).2.2.1) hm
            rw [hblocks]
            simp
          · have hblocks :
                blocks.map (fun b => b.returnRecord.ident)
                  = e.variants.map (fun v => v.name ++ "__RawReturn") :=
              exceptMapList_ok_map (fun v b hb => (quoteVariantBlock_ok hb).2.2.2) hm
            rw [hblocks]
            simp

/-- C4 witness: the overlay-union invariant instantiated at the concrete
two-variant data-carrying enum `Tile`. -/
theorem complex_enum_overlay_invariant_witness :
    ∃ out, quoteComplexEnumBinding tileExport tileEnum [] = .ok out ∧
      out.argUnionFields.length = 2 ∧
      out.returnUnionFields.length = 2 ∧
      out.variantBlocks.map VariantBlock.structIdent = ["Simple", "Wind"] ∧
      out.argUnionFields.map UnionField.tyName
        = out.variantBlocks.map (fun b => b.argRecord.ident) ∧
      out.returnUnionFields.map UnionField.tyName
        = out.variantBlocks.map (fun b => b.returnRecord.ident) := by
  obtain ⟨out, hq⟩ : ∃ out, quoteComplexEnumBinding tileExport tileEnum [] = .ok out :=
    ⟨_, rfl⟩
  obtain ⟨h1, h2, _, _, h5, _, _, h8, h9, _, _⟩ :=
    complex_enum_overlay_invariant tileExport tileEnum [] out hq
  exact ⟨out, hq, by rw [h1]; rfl, by rw [h2]; rfl, by rw [h5]; rfl, h8, h9⟩

/-- C5: for every Unit-only enum, a variant with an explicit discriminant
literal has that literal re-emitted verbatim as opaque text (the generator
performs no arithmetic on it), a variant without one receives the default
successor value under the target language's enum semantics (previous + 1,
starting at 0), and in particular the enum `[A, B(=5), C]` yields
discriminants `A=0, B=5, C=6`. -/
theorem simple_enum_discriminants :
    (∀ (ex : NamedType) (e : EnumSchema) (decl : SimpleEnumDecl),
        quoteSimpleEnumBinding ex e = .ok decl →
        ∀ (n t : String), Variant.unit n (some t) ∈ e.variants →
          (⟨n, some t⟩ : SimpleVariantDecl) ∈ decl.variants) ∧
    quoteSimpleEnumBinding abcExport abcEnum =
      .ok ⟨"E", [⟨"A", none⟩, ⟨"B", some "5"⟩, ⟨"C", none⟩]⟩ ∧
    csEnumValues [⟨"A", none⟩, ⟨"B", some "5"⟩, ⟨"C", none⟩] 0 =
      [("A", 0), ("B", 5), ("C", 6)] := by
  refine ⟨?_, rfl, rfl⟩
  intro ex e decl h n t ha
  simp only [quoteSimpleEnumBinding] at h
  cases hm : exceptMapList quoteSimpleVariant e.variants with
  | error err => rw [hm] at h; exact absurd h (by simp)
  | ok vs =>
      rw [hm] at h
      cases h
      obtain ⟨b, hb, hfb⟩ := exceptMapList_ok_mem hm ha
      simp only [quoteSimpleVariant] at hfb
      by_cases hp : (parseDiscriminant t).isSome
      · rw [if_pos hp] at hfb
        cases hfb
        exact hb
      · rw [if_neg hp] at hfb
        exact absurd hfb (by simp)

/-- C5 witness: the verbatim re-emission law applied to variant `B(=5)` of
the concrete enum `[A, B(=5), C]`. -/
theorem simple_enum_discriminants_witness :
    (⟨"B", some "5"⟩ : SimpleVariantDecl) ∈
      (SimpleEnumDecl.mk "E" [⟨"A", none⟩, ⟨"B", some "5"⟩, ⟨"C", none⟩]).variants :=
  simple_enum_discriminants.1 abcExport abcEnum _ rfl "B" "5"
    (List.mem_cons_of_mem _ (List.mem_cons_self _ _))

/-- C6: for every registered by-value enum schema without data, the
discriminant storage type at the FFI boundary is the explicitly declared
repr when one is present, and defaults to the pointer-sized `IntPtr` when
no repr was declared. -/
theorem enum_discriminant_storage (e : EnumSchema) (ex : NamedType)
    (types : TypeMap)
    (hlook : lookupType types e.name = some ex)
    (hstyle : ex.bindingStyle.isHandle = false)
    (hdata : e.hasData = false) :
    rawTypeFromSchema (.enum_ e) types = .ok (quoteDiscriminantType e) ∧
    (e.reprStorage = none → quoteDiscriminantType e = .intPtr) ∧
    (∀ p, e.reprStorage = some p → quoteDiscriminantType e = quotePrimitiveType p) := by
  refine ⟨?_, ?_, ?_⟩
  · simp [rawTypeFromSchema, hlook, hstyle, hdata]
  · intro h; simp [quoteDiscriminantType, h]
  · intro p h; simp [quoteDiscriminantType, h]

/-- C6 witness: the `Suit{Coins, Bamboo, Characters}` enum with no declared
repr is marshalled with the default pointer-sized discriminant. -/
theorem enum_discriminant_storage_witness :
    rawTypeFromSchema (.enum_ suitEnum) suitTypes = .ok (quoteDiscriminantType suitEnum) ∧
    quoteDiscriminantType suitEnum = .intPtr :=
  ⟨(enum_discriminant_storage suitEnum suitExport suitTypes rfl rfl rfl).1,
   (enum_discriminant_storage suitEnum suitExport suitTypes rfl rfl rfl).2.1 rfl⟩

/-- C7: generation fails, with no partial output for the type, for both
invalid binding-style combinations — a data-carrying enum declared with
`Handle` style, and a simple-enum emission for an enum containing a
non-Unit variant. -/
theorem invalid_binding_style_fails :
    (∀ (ex : NamedType) (e : EnumSchema) (types : TypeMap),
        e.hasData = true → ex.bindingStyle.isHandle = true →
        quoteEnumBinding ex e types =
          .error (.panic ("Right now we only support exporting complex enums by value"))) ∧
    (∀ (ex : NamedType) (e : EnumSchema) (v : Variant),
        v ∈ e.variants → v.isUnit = false →
        ∀ decl, quoteSimpleEnumBinding ex e ≠ .ok decl) := by
  constructor
  · intro ex e types hdata hstyle
    cases hs : ex.bindingStyle with
    | handle => simp [quoteEnumBinding, hdata, quoteComplexEnumBinding, hs, Except.map]
    | value s => rw [hs] at hstyle; exact absurd hstyle (by simp [BindingStyle.isHandle])
  · intro ex e v hv hnu decl h
    simp only [quoteSimpleEnumBinding] at h
    cases hm : exceptMapList quoteSimpleVariant e.variants with
    | error err => rw [hm] at h; exact absurd h (by simp)
    | ok vs =>
        obtain ⟨b, _, hfb⟩ := exceptMapList_ok_mem hm hv
        cases v with
        | unit n d => exact absurd hnu (by simp [Variant.isUnit])
        | tuple n fs => exact absurd hfb (by simp [quoteSimpleVariant])
        | struct n fs => exact absurd hfb (by simp [quoteSimpleVariant])

/-- C7 witness: the two invalid combinations instantiated at the concrete
data-carrying enum `Tile` with a `Handle`-style export, and at its non-Unit
variant for the simple-enum strategy. -/
theorem invalid_binding_style_fails_witness :
    quoteEnumBinding handleExport tileEnum [] =
      .error (.panic ("Right now we only support exporting complex enums by value")) ∧
    quoteSimpleEnumBinding tileExport tileEnum ≠ .ok ⟨"Tile", []⟩ :=
  ⟨invalid_binding_style_fails.1 handleExport tileEnum [] rfl rfl,
   invalid_binding_style_fails.2 tileExport tileEnum
     (.tuple "Simple" [.mk (some "number") .u8])
     (List.mem_cons_self _ _) rfl ⟨"Tile", []⟩⟩

/-- C8 counterexample: resolving a 128-bit integer schema fails with the
panic message "Invalid types should have already been handled", and
resolving an option schema fails with the panic message "Generate argument
binding" — messages that identify neither the unsupported kind nor its
location, contradicting the claim that every unsupported-kind error
identifies the offending kind and its location. -/
theorem unsupported_kind_counterexample :
    rawTypeFromSchema .i128 [] =
      .error (.panic ("Invalid types should have already been handled")) ∧
    rawTypeFromSchema (.option .u8) [] =
      .error (.panic ("Generate argument binding")) :=
  ⟨rfl, rfl⟩

/-- C8 (amended): for every schema containing an array, option, tuple, map,
128-bit integer, or a string/sequence whose origin is not the recognized
one, resolving its raw representation fails with an explicit panic error
and never silently defaults to another representation; the message names
the unsupported kind only for arrays, unrecognized string/sequence origins
and the repr-side arrays, options and results, while schema-side options,
tuples and maps share the generic message "Generate argument binding" and
128-bit integers fail with the generic message "Invalid types should have
already been handled", and no message names the location. -/
theorem unsupported_kind_fails (types : TypeMap) (el k v inner : Schema)
    (n : TypeName) (ss : List Schema) (len : Nat) :
    rawTypeFromSchema (.array el len) types =
      .error (.panic ("Support passing fixed-size arrays")) ∧
    rawTypeFromSchema (.option inner) types =
      .error (.panic ("Generate argument binding")) ∧
    rawTypeFromSchema (.tuple ss) types =
      .error (.panic ("Generate argument binding")) ∧
    rawTypeFromSchema (.map k v) types =
      .error (.panic ("Generate argument binding")) ∧
    rawTypeFromSchema .i128 types =
      .error (.panic ("Invalid types should have already been handled")) ∧
    rawTypeFromSchema .u128 types =
      .error (.panic ("Invalid types should have already been handled")) ∧
    (n ≠ stringTypeName →
      rawTypeFromSchema (.string n) types =
        .error (.panic ("Handle unknown custom string types"))) ∧
    (¬(n.name = "Vec" ∧ n.module = "alloc::vec") →
      rawTypeFromSchema (.seq n el) types =
        .error (.panic ("Handle unknown sequence types"))) ∧
    (∀ (r : Repr) (rlen : Nat),
      rawTypeFromRepr (.array r rlen) types = .error (.panic ("Support arrays"))) ∧
    (∀ r : Repr,
      rawTypeFromRepr (.option r) types = .error (.panic ("Support optional types"))) ∧
    (∀ r₁ r₂ : Repr,
      rawTypeFromRepr (.result r₁ r₂) types = .error (.panic ("Support `Result`"))) := by
  refine ⟨rfl, rfl, rfl, rfl, rfl, rfl, ?_, ?_, fun r rlen => rfl, fun r => rfl,
    fun r₁ r₂ => rfl⟩
  · intro h
    simp [rawTypeFromSchema, h]
  · intro h
    simp only [rawTypeFromSchema]
    rw [if_neg h]

/-- C8 witness: the unsupported-kind law instantiated at an unrecognized
custom string origin and an unrecognized sequence origin. -/
theorem unsupported_kind_fails_witness :
    rawTypeFromSchema (.string ⟨"MyStr", "my_crate"⟩) [] =
      .error (.panic ("Handle unknown custom string types")) ∧
    rawTypeFromSchema (.seq ⟨"VecDeque", "alloc::collections"⟩ .u8) [] =
      .error (.panic ("Handle unknown sequence types")) :=
  ⟨(unsupported_kind_fails [] .u8 .u8 .u8 .u8 ⟨"MyStr", "my_crate"⟩ [] 0).2.2.2.2.2.2.1
      (by decide),
   (unsupported_kind_fails [] .u8 .u8 .u8 .u8 ⟨"VecDeque", "alloc::collections"⟩ [] 0).2.2.2.2.2.2.2.1
      (by decide)⟩

/-- C9: converting an idiomatic value to its raw representation and back
yields the original value — for strings, `RawString::into_string` after
`RawString::from_string` reconstructs the original string (bytes and
capacity); for booleans the `rawResult != 0` read-back emitted by
`quote_wrapper_fn` in `cs-bindgen-cli/src/main.rs` inverts the native
1-byte lowering; and for characters the modelled scalar-value conversions
round-trip. -/
theorem conversion_round_trip :
    (∀ s : RustString, s.fromString.intoString = s) ∧
    (∀ b : Bool, fromRawBool (intoRawBool b) = b) ∧
    (∀ c : Char, fromRawChar (intoRawChar c) = c) := by
  refine ⟨?_, ?_, ?_⟩
  · intro s
    cases s with
    | mk bytes capacity =>
        simp [RustString.fromString, RawString.intoString, List.take_length]
  · intro b
    cases b <;> rfl
  · intro c
    exact Char.ofNat_toNat c

/-- C10: the two parallel raw-representation resolvers agree — for every
kind representable in both inputs (primitives, floats, owned and borrowed
text, the recognized owned sequence, slices, and `Handle`-registered named
types), `rawTypeFromRepr` and `rawTypeFromSchema` produce the identical
raw type declaration given the same registry. -/
theorem resolver_agreement (types : TypeMap) :
    rawTypeFromRepr .unit types = rawTypeFromSchema .unit types ∧
    rawTypeFromRepr .bool types = rawTypeFromSchema .bool types ∧
    rawTypeFromRepr .char types = rawTypeFromSchema .char types ∧
    rawTypeFromRepr .i8 types = rawTypeFromSchema .i8 types ∧
    rawTypeFromRepr .i16 types = rawTypeFromSchema .i16 types ∧
    rawTypeFromRepr .i32 types = rawTypeFromSchema .i32 types ∧
    rawTypeFromRepr .i64 types = rawTypeFromSchema .i64 types ∧
    rawTypeFromRepr .isize types = rawTypeFromSchema .isize types ∧
    rawTypeFromRepr .u8 types = rawTypeFromSchema .u8 types ∧
    rawTypeFromRepr .u16 types = rawTypeFromSchema .u16 types ∧
    rawTypeFromRepr .u32 types = rawTypeFromSchema .u32 types ∧
    rawTypeFromRepr .u64 types = rawTypeFromSchema .u64 types ∧
    rawTypeFromRepr .usize types = rawTypeFromSchema .usize types ∧
    rawTypeFromRepr .f32 types = rawTypeFromSchema .f32 types ∧
    rawTypeFromRepr .f64 types = rawTypeFromSchema .f64 types ∧
    rawTypeFromRepr .string types = rawTypeFromSchema stringSchema types ∧
    rawTypeFromRepr .str types = rawTypeFromSchema .str types ∧
    (∀ (er : Repr) (es : Schema),
      rawTypeFromRepr (.vec er) types = rawTypeFromSchema (.seq vecTypeName es) types) ∧
    (∀ (er : Repr) (es : Schema),
      rawTypeFromRepr (.slice er) types = rawTypeFromSchema (.slice es) types) ∧
    (∀ (tn : TypeName) (ex : NamedType),
      lookupType types tn = some ex → ex.bindingStyle.isHandle = true →
      (∀ fs : List SField,
        rawTypeFromRepr (.named tn) types = rawTypeFromSchema (.struct_ tn fs) types) ∧
      (∀ (r : Option Prim) (vs : List Variant),
        rawTypeFromRepr (.named tn) types =
          rawTypeFromSchema (.enum_ (.mk tn r vs)) types)) := by
  refine ⟨rfl, rfl, rfl, rfl, rfl, rfl, rfl, rfl, rfl, rfl, rfl, rfl, rfl, rfl, rfl,
    rfl, rfl, fun er es => rfl, fun er es => rfl, ?_⟩
  intro tn ex hlook hstyle
  cases hs : ex.bindingStyle with
  | value s => rw [hs] at hstyle; exact absurd hstyle (by simp [BindingStyle.isHandle])
  | handle =>
      constructor
      · intro fs
        simp [rawTypeFromRepr, rawTypeFromSchema,
          rawTypeForNamedStruct, hlook, hs, BindingStyle.isHandle]
      · intro r vs
        simp [rawTypeFromRepr, rawTypeFromSchema, EnumSchema.name, hlook, hs,
          BindingStyle.isHandle]

/-- C10 witness: the resolver agreement applied to a concrete
`Handle`-registered named type. -/
theorem resolver_agreement_witness :
    rawTypeFromRepr (.named ⟨"Obj", "demo"⟩) handleTypes =
      rawTypeFromSchema (.struct_ ⟨"Obj", "demo"⟩ []) handleTypes :=
  (((resolver_agreement handleTypes).2.2.2.2.2.2.2.2.2.2.2.2.2.2.2.2.2.2.2)
    ⟨"Obj", "demo"⟩ handleExport rfl rfl).1 []

end CsBindgen
